import Mathlib

/-!
Verification of the Windows service control state machine of the daemon
package, as implemented in src/examples/examples2/myservice.go (package
daemon, windows version).  The definitions below are a shallow embedding of
that file: execStep, execLoop and Execute embed serviceHandler.Execute;
WindowsRecord.Run embeds windowsRecord.Run; getWindowsError embeds
getWindowsError; newDaemon embeds newDaemon.  Side effects of the handler
(status announcements on the changes channel, lifecycle calls into the user
executable, event-log writes) are recorded as an explicit output trace, and
the event loop is observed while it consumes a finite prefix of the merged
tick/control event stream.
-/

namespace Daemon

/-- The service states of golang.org/x/sys/windows/svc (svc.State). -/
inductive SvcState
  | stopped
  | startPending
  | stopPending
  | running
  | continuePending
  | pausePending
  | paused
  deriving BEq, DecidableEq

/-- svc.Status: a state together with the accepted-commands bitmask
(svc.Status.Accepts; an omitted field in a Go struct literal is 0). -/
structure SvcStatus where
  state : SvcState
  accepts : Nat
  deriving BEq, DecidableEq

/-- svc.AcceptStop. -/
def AcceptStop : Nat := 1

/-- svc.AcceptPauseAndContinue. -/
def AcceptPauseAndContinue : Nat := 2

/-- svc.AcceptShutdown. -/
def AcceptShutdown : Nat := 4

/-- The constant of serviceHandler.Execute:
cmdsAccepted = svc.AcceptStop | svc.AcceptShutdown | svc.AcceptPauseAndContinue. -/
def cmdsAccepted : Nat := AcceptStop ||| AcceptShutdown ||| AcceptPauseAndContinue

/-- svc.Cmd: the control codes dispatched on by the event loop; other
covers every unrecognized code (the default case of the switch). -/
inductive SvcCmd
  | interrogate
  | stop
  | shutdown
  | pause
  | continueC
  | other (code : Nat)
  deriving BEq, DecidableEq

/-- svc.ChangeRequest, restricted to the fields the handler reads:
Cmd, Context (a uintptr, modelled as Nat) and CurrentStatus. -/
structure ChangeRequest where
  cmd : SvcCmd
  context : Nat
  currentStatus : SvcStatus
  deriving BEq, DecidableEq

/-- The two tick cadences of the loop: fast is the 500ms fasttick,
slow the 2s slowtick; the loop variable tick aliases one of the two. -/
inductive Tick
  | fast
  | slow
  deriving BEq, DecidableEq

/-- One event consumed by one iteration of the select in the loop: either
a tick from the active ticker, or a control request delivered on the
channel r.  A control event carries the Cmd and Context of the request;
its CurrentStatus field is filled in by the svc harness with the status
most recently sent on changes (see execStep). -/
inductive Event
  | tick
  | ctrl (cmd : SvcCmd) (context : Nat)
  deriving BEq, DecidableEq

/-- The observable actions of the handler, in the order they happen:
a status sent on the changes channel, a lifecycle call on the user
executable, or an event-log write (elog.Info / elog.Error). -/
inductive Output
  | status (s : SvcStatus)
  | startCall
  | runCall
  | stopCall
  | logInfo (msg : String)
  | logError (msg : String)
  deriving BEq, DecidableEq

/-- Whether an output is an event-log write. -/
def Output.isLog : Output → Bool
  | Output.logInfo _ => true
  | Output.logError _ => true
  | _ => false

/-- Whether an output is a status announcement on the changes channel. -/
def Output.isAnnouncement : Output → Bool
  | Output.status _ => true
  | _ => false

/-- The outputs of a trace that are not event-log writes: the status
announcements and the executable lifecycle calls. -/
def nonLogOutputs (outs : List Output) : List Output :=
  outs.filter fun o => !o.isLog

/-- The sequence of statuses a trace sends on the changes channel. -/
def announcements (outs : List Output) : List SvcStatus :=
  outs.filterMap fun o =>
    match o with
    | Output.status s => some s
    | _ => none

/-- The mutable state of the event loop of serviceHandler.Execute:
which ticker the variable tick currently aliases, the status most recently
sent on changes (tracked by the svc harness, which echoes it back as the
CurrentStatus of Interrogate requests), and whether the loop has been
exited.  Since the statement break loop in the source is commented out and
replaced by a plain break (which in Go exits only the enclosing switch),
no case of the loop ever sets exited. -/
structure LoopState where
  tick : Tick
  lastStatus : SvcStatus
  exited : Bool
  deriving BEq, DecidableEq

/-- One iteration of the event loop of serviceHandler.Execute: the body of
the select statement.  A tick is a no-op.  A control request c is
dispatched on c.Cmd:
Interrogate sends c.CurrentStatus on changes twice (with a 100ms sleep
between the sends, invisible to the trace);
Stop and Shutdown log the startup arguments joined by "-" followed by "-"
and the Context of the request (if elog is non-nil), call
sh.executable.Stop(), and then break — which exits only the switch, not
the loop, so the state is left unchanged and exited stays false;
Pause sends Paused with cmdsAccepted and points tick at slowtick;
Continue sends Running with cmdsAccepted and points tick at fasttick;
every other code logs an error (if elog is non-nil; the source formats the
whole request with a numeric verb) and continues the loop.
The flag elog says whether the event-log sink opened by newDaemon is
non-nil, and args is the argument list Execute received. -/
def execStep (elog : Bool) (args : List String) (st : LoopState) (e : Event) :
    LoopState × List Output :=
  match e with
  | Event.tick => (st, [])
  | Event.ctrl cmd context =>
    let c : ChangeRequest := ⟨cmd, context, st.lastStatus⟩
    match c.cmd with
    | SvcCmd.interrogate =>
        ({ st with lastStatus := c.currentStatus },
         [Output.status c.currentStatus, Output.status c.currentStatus])
    | SvcCmd.stop =>
        (st,
         (if elog then
            [Output.logInfo (String.intercalate "-" args ++ "-" ++ toString c.context)]
          else []) ++ [Output.stopCall])
    | SvcCmd.shutdown =>
        (st,
         (if elog then
            [Output.logInfo (String.intercalate "-" args ++ "-" ++ toString c.context)]
          else []) ++ [Output.stopCall])
    | SvcCmd.pause =>
        ({ st with lastStatus := ⟨SvcState.paused, cmdsAccepted⟩, tick := Tick.slow },
         [Output.status ⟨SvcState.paused, cmdsAccepted⟩])
    | SvcCmd.continueC =>
        ({ st with lastStatus := ⟨SvcState.running, cmdsAccepted⟩, tick := Tick.fast },
         [Output.status ⟨SvcState.running, cmdsAccepted⟩])
    | SvcCmd.other code =>
        (st,
         if elog then
           [Output.logError ("unexpected control request #" ++ toString code)]
         else [])

/-- The event loop of serviceHandler.Execute, observed while it consumes a
finite prefix of the merged tick/control event stream.  The loop would
stop consuming events only once exited is set by some iteration; since no
case sets it, the guard is never taken and every delivered event is
processed. -/
def execLoop (elog : Bool) (args : List String) :
    LoopState → List Event → LoopState × List Output
  | st, [] => (st, [])
  | st, e :: es =>
    if st.exited then (st, [])
    else
      let r1 := execStep elog args st e
      let r2 := execLoop elog args r1.1 es
      (r2.1, r1.2 ++ r2.2)

/-- The loop state at the top of the labelled loop: tick aliases fasttick,
the last status sent on changes is Running with cmdsAccepted, and the loop
has not exited. -/
def loopInit : LoopState :=
  ⟨Tick.fast, ⟨SvcState.running, cmdsAccepted⟩, false⟩

/-- serviceHandler.Execute, observed on a finite prefix of delivered
events.  Startup: send StartPending, call sh.executable.Start(), send
Running with cmdsAccepted, call sh.executable.Run(), and log "start-run"
if elog is non-nil.  Then the event loop runs.  The code after the loop
(sending StopPending and returning) executes only if the loop exits, which
no event causes, so the conditional StopPending announcement at the end is
never emitted. -/
def Execute (elog : Bool) (args : List String) (events : List Event) :
    LoopState × List Output :=
  let startupOut : List Output :=
    [Output.status ⟨SvcState.startPending, 0⟩, Output.startCall,
     Output.status ⟨SvcState.running, cmdsAccepted⟩, Output.runCall]
    ++ (if elog then [Output.logInfo "start-run"] else [])
  let r := execLoop elog args loopInit events
  (r.1, startupOut ++ r.2
        ++ (if r.1.exited then [Output.status ⟨SvcState.stopPending, 0⟩] else []))

/-- An entry of the WinErrCode table: title, description and recommended
action of a known Windows service error code. -/
structure SysErr where
  title : String
  description : String
  action : String
  deriving BEq, DecidableEq

/-- A Go error value as far as getWindowsError can distinguish it: either
an exec.ExitError whose Sys() is a syscall.WaitStatus with the given exit
status (on Windows, Sys() of an ExitError is always a WaitStatus), or any
other error, identified by its message. -/
inductive GoError
  | exitError (exitStatus : Int)
  | errorString (msg : String)
  deriving BEq, DecidableEq

/-- getWindowsError: if the input error is an exec.ExitError whose exit
status has an entry in the WinErrCode table, replace it by a new error
formatted from the title, description and action of the entry; otherwise
return the input error unchanged.  Modelled from the spec: the WinErrCode
table itself lives elsewhere in the repository (not under src/), so it is
taken here as an abstract mapping from exit status to table entry. -/
def getWindowsError (winErrCode : Int → Option SysErr) : GoError → GoError
  | GoError.exitError status =>
    match winErrCode status with
    | some sysErr =>
        GoError.errorString
          ("\n " ++ sysErr.title ++ ": " ++ sysErr.description ++ " \n " ++ sysErr.action)
    | none => GoError.exitError status
  | e => e

/-- Modelled from the spec: the string constant failed, appended to action
labels on error, is defined elsewhere in the repository (not under src/);
its exact text is irrelevant to every claim, which only concern which
error value is propagated. -/
def failed : String := " failed!"

/-- windowsRecord: the record constructed by newDaemon. -/
structure WindowsRecord where
  name : String
  description : String
  dependencies : List String
  deriving BEq, DecidableEq

/-- newDaemon: opens the event log for the service name; if opening fails
the global elog is set to nil (recorded here as the Bool in the first
component); the windowsRecord and a nil error are returned in every case.
The flag openOk says whether eventlog.Open succeeded. -/
def newDaemon (name description : String) (dependencies : List String) (openOk : Bool) :
    Bool × WindowsRecord × Option GoError :=
  (openOk, ⟨name, description, dependencies⟩, none)

/-- windowsRecord.Run: builds the runAction label, asks the OS whether the
session is interactive (session is the result of
svc.IsAnInteractiveSession, an error or a Bool), and then:
on a session-check error, returns the label plus failed together with
getWindowsError of that error;
when not interactive, hands the serviceHandler to svc.Run (whose handler
trace on the delivered events is Execute; svcErr is the result of
svc.Run), propagating any error through getWindowsError, without retrying;
when interactive, calls e.Run() directly and synchronously — no status
announcement, no control handling — and returns the success label. -/
def WindowsRecord.Run (winErrCode : Int → Option SysErr) (w : WindowsRecord)
    (elog : Bool) (session : Except GoError Bool) (svcArgs : List String)
    (events : List Event) (svcErr : Option GoError) :
    (String × Option GoError) × List Output :=
  let runAction := "Running " ++ w.description ++ ":"
  match session with
  | Except.error err => ((runAction ++ failed, some (getWindowsError winErrCode err)), [])
  | Except.ok interactive =>
    if !interactive then
      let r := Execute elog svcArgs events
      match svcErr with
      | some err => ((runAction ++ failed, some (getWindowsError winErrCode err)), r.2)
      | none => ((runAction ++ " completed.", none), r.2)
    else
      ((runAction ++ " completed.", none), [Output.runCall])

/-- The cadence/state coupling of the loop: the active ticker is slowtick
exactly when the last announced state is Paused, and fasttick exactly when
it is Running. -/
def cadenceMatches (st : LoopState) : Prop :=
  (st.tick = Tick.slow ↔ st.lastStatus.state = SvcState.paused) ∧
  (st.tick = Tick.fast ↔ st.lastStatus.state = SvcState.running)

/-- A concrete one-entry WinErrCode table, used to instantiate the error
mapping theorem on explicit inputs. -/
def winErrCodeExample : Int → Option SysErr :=
  fun status => if status = 5 then some ⟨"title5", "desc5", "action5"⟩ else none

/-- No case of the event loop changes the exited flag. -/
lemma execStep_exited (elog : Bool) (args : List String) (st : LoopState) (e : Event) :
    (execStep elog args st e).1.exited = st.exited := by
  cases e with
  | tick => rfl
  | ctrl cmd ctx => cases cmd <;> rfl

/-- The default case of the switch: an unrecognized code leaves the state
untouched and at most logs an error. -/
lemma execStep_other_eq (elog : Bool) (args : List String) (st : LoopState) (code ctx : Nat) :
    execStep elog args st (Event.ctrl (SvcCmd.other code) ctx)
      = (st, if elog then [Output.logError ("unexpected control request #" ++ toString code)]
             else []) := by
  cases elog <;> rfl

/-- Filtering the log entries out of a trace distributes over
concatenation. -/
lemma nonLogOutputs_append (a b : List Output) :
    nonLogOutputs (a ++ b) = nonLogOutputs a ++ nonLogOutputs b := by
  simp [nonLogOutputs, List.filter_append]

/-- A prefix of unrecognized control requests leaves the loop state
untouched and contributes only log entries to the trace. -/
lemma execLoop_other_prefix (elog : Bool) (args : List String) :
    ∀ (codes : List (Nat × Nat)) (st : LoopState), st.exited = false →
    ∀ (rest : List Event),
      (execLoop elog args st
          (codes.map (fun p => Event.ctrl (SvcCmd.other p.1) p.2) ++ rest)).1
        = (execLoop elog args st rest).1 ∧
      nonLogOutputs (execLoop elog args st
          (codes.map (fun p => Event.ctrl (SvcCmd.other p.1) p.2) ++ rest)).2
        = nonLogOutputs (execLoop elog args st rest).2 := by
  intro codes
  induction codes with
  | nil => intro st h rest; simp
  | cons p ps ih =>
    intro st h rest
    have hstep := execStep_other_eq elog args st p.1 p.2
    simp only [List.map_cons, List.cons_append, execLoop, h, Bool.false_eq_true, if_false,
      hstep, List.append_eq]
    obtain ⟨h1, h2⟩ := ih st h rest
    refine ⟨h1, ?_⟩
    rw [nonLogOutputs_append, h2]
    cases elog <;> simp [nonLogOutputs, Output.isLog]

/-- Disabling the event-log sink changes no state transition of a loop
iteration, removes every log entry from its outputs, and changes no other
output. -/
lemma execStep_elog_equiv (args : List String) (st : LoopState) (e : Event) :
    (execStep false args st e).1 = (execStep true args st e).1 ∧
    nonLogOutputs (execStep false args st e).2 = nonLogOutputs (execStep true args st e).2 ∧
    (execStep false args st e).2.all (fun o => !o.isLog) = true := by
  cases e with
  | tick => exact ⟨rfl, rfl, rfl⟩
  | ctrl cmd ctx => cases cmd <;> simp [execStep, nonLogOutputs, Output.isLog]

/-- Disabling the event-log sink changes neither the loop state nor the
non-log outputs of the event loop, and leaves no log entry in its trace. -/
lemma execLoop_elog_equiv (args : List String) :
    ∀ (events : List Event) (st : LoopState),
      (execLoop false args st events).1 = (execLoop true args st events).1 ∧
      nonLogOutputs (execLoop false args st events).2
        = nonLogOutputs (execLoop true args st events).2 ∧
      (execLoop false args st events).2.all (fun o => !o.isLog) = true := by
  intro events
  induction events with
  | nil => intro st; exact ⟨rfl, rfl, rfl⟩
  | cons e es ih =>
    intro st
    by_cases hx : st.exited = true
    · simp [execLoop, hx]
    · simp only [Bool.not_eq_true] at hx
      obtain ⟨h1, h2, h3⟩ := execStep_elog_equiv args st e
      obtain ⟨g1, g2, g3⟩ := ih (execStep false args st e).1
      simp only [execLoop, hx, Bool.false_eq_true, if_false]
      refine ⟨?_, ?_, ?_⟩
      · rw [g1, h1]
      · rw [nonLogOutputs_append, nonLogOutputs_append, h2, g2, h1]
      · simp [List.all_append, h3, g3]

/-- Disabling the event-log sink changes neither the final loop state nor
the non-log outputs of the whole handler, and leaves no log entry in its
trace. -/
lemma Execute_elog_equiv (args : List String) (events : List Event) :
    (Execute false args events).1 = (Execute true args events).1 ∧
    nonLogOutputs (Execute false args events).2 = nonLogOutputs (Execute true args events).2 ∧
    (Execute false args events).2.all (fun o => !o.isLog) = true := by
  obtain ⟨h1, h2, h3⟩ := execLoop_elog_equiv args events loopInit
  refine ⟨h1, ?_, ?_⟩
  · simp only [Execute, nonLogOutputs_append, h1, h2]
    simp [nonLogOutputs, Output.isLog]
  · simp only [Execute, List.append_assoc, List.all_append, h3]
    cases (execLoop false args loopInit events).1.exited <;> simp [Output.isLog]

/-- A single loop iteration preserves the cadence/state coupling. -/
lemma execStep_cadenceMatches (elog : Bool) (args : List String) (st : LoopState) (e : Event)
    (h : cadenceMatches st) : cadenceMatches (execStep elog args st e).1 := by
  cases e with
  | tick => exact h
  | ctrl cmd ctx =>
    cases cmd with
    | interrogate => exact h
    | stop => exact h
    | shutdown => exact h
    | pause => exact ⟨by simp [execStep], by simp [execStep]⟩
    | continueC => exact ⟨by simp [execStep], by simp [execStep]⟩
    | other code => exact h

/-- The event loop preserves the cadence/state coupling. -/
lemma execLoop_cadenceMatches (elog : Bool) (args : List String) :
    ∀ (events : List Event) (st : LoopState), cadenceMatches st →
      cadenceMatches (execLoop elog args st events).1 := by
  intro events
  induction events with
  | nil => intro st h; exact h
  | cons e es ih =>
    intro st h
    by_cases hx : st.exited = true
    · simp only [execLoop, hx, if_true]
      exact h
    · simp only [Bool.not_eq_true] at hx
      simp only [execLoop, hx, Bool.false_eq_true, if_false]
      exact ih _ (execStep_cadenceMatches elog args st e h)

/-- C1: the claim fails on the code.  The break statement in the
Stop/Shutdown case exits only the switch (the form break loop is commented
out), so a Stop request does not terminate the loop: after processing
Stop, the exited flag is still false and StopPending is never sent; and a
second Stop request calls executable.Stop a second time, so the stop
request of the workload is not invoked at most once after the first
termination-class request. -/
theorem C1_stop_never_terminates_loop :
    ((Execute false [] [Event.ctrl SvcCmd.stop 0]).1.exited = false) ∧
    ((Execute false [] [Event.ctrl SvcCmd.stop 0]).2.contains
        (Output.status ⟨SvcState.stopPending, 0⟩) = false) ∧
    (((Execute false [] [Event.ctrl SvcCmd.stop 0, Event.ctrl SvcCmd.stop 0]).2.filter
        (fun o => o == Output.stopCall)).length = 2) := by
  decide

/-- C2: the claim fails on the code.  For the control-request sequence
Pause, Continue, Stop — which ends in Stop — the announcements are
StartPending, Running, Paused, Running and nothing more: the final
StopPending required by the claim is never announced, because the loop
never exits.  The complete trace also shows the parts of the claim the
code does satisfy: StartPending is announced before the Start call of the
workload, and Running is announced after Start returns and before Run
begins. -/
theorem C2_stopPending_never_announced :
    (announcements (Execute false [] [Event.ctrl SvcCmd.pause 0, Event.ctrl SvcCmd.continueC 0,
        Event.ctrl SvcCmd.stop 0]).2
      = [⟨SvcState.startPending, 0⟩, ⟨SvcState.running, cmdsAccepted⟩,
         ⟨SvcState.paused, cmdsAccepted⟩, ⟨SvcState.running, cmdsAccepted⟩]) ∧
    ((Execute false [] [Event.ctrl SvcCmd.pause 0, Event.ctrl SvcCmd.continueC 0,
        Event.ctrl SvcCmd.stop 0]).2
      = [Output.status ⟨SvcState.startPending, 0⟩, Output.startCall,
         Output.status ⟨SvcState.running, cmdsAccepted⟩, Output.runCall,
         Output.status ⟨SvcState.paused, cmdsAccepted⟩,
         Output.status ⟨SvcState.running, cmdsAccepted⟩, Output.stopCall]) := by
  decide

/-- C3: an unrecognized control code leaves the loop state (service state,
cadence, exited flag) unchanged and produces only log entries, and for
every count N, every list of unrecognized codes with their context values
and every continuation of the event stream, the run on the N unrecognized
requests followed by the continuation has the same final state and the
same announcements and workload calls (all outputs except log entries) as
the run on the continuation alone. -/
theorem C3_unrecognized_codes_inert :
    ∀ (elog : Bool) (args : List String) (st : LoopState) (code ctx : Nat),
      ((execStep elog args st (Event.ctrl (SvcCmd.other code) ctx)).1 = st) ∧
      ((execStep elog args st (Event.ctrl (SvcCmd.other code) ctx)).2.all Output.isLog
        = true) ∧
    ∀ (codes : List (Nat × Nat)) (rest : List Event),
      ((Execute elog args (codes.map (fun p => Event.ctrl (SvcCmd.other p.1) p.2) ++ rest)).1
        = (Execute elog args rest).1) ∧
      (nonLogOutputs
          (Execute elog args (codes.map (fun p => Event.ctrl (SvcCmd.other p.1) p.2) ++ rest)).2
        = nonLogOutputs (Execute elog args rest).2) := by
  intro elog args st code ctx
  refine ⟨?_, ?_, ?_⟩
  · rw [execStep_other_eq]
  · rw [execStep_other_eq]
    cases elog <;> simp [Output.isLog]
  · intro codes rest
    obtain ⟨h1, h2⟩ := execLoop_other_prefix elog args codes loopInit rfl rest
    constructor
    · simp only [Execute, h1]
    · simp only [Execute, nonLogOutputs_append, h1, h2]

/-- C4: an Interrogate request sends exactly two status echoes on the
changes channel, each equal to the status in effect immediately before the
request arrived (its CurrentStatus, which the svc harness fills with the
status most recently sent), and the loop state — service state, accepted
commands, tick cadence — is completely unchanged. -/
theorem C4_interrogate_double_echo :
    ∀ (elog : Bool) (args : List String) (st : LoopState) (ctx : Nat),
      execStep elog args st (Event.ctrl SvcCmd.interrogate ctx)
        = (st, [Output.status st.lastStatus, Output.status st.lastStatus]) := by
  intro elog args st ctx
  rfl

/-- C5: at every point of the event loop the active cadence is slow
exactly when the announced state is Paused and fast exactly when it is
Running (an invariant from the loop entry state, for every event
sequence), and a single event changes the cadence to slow exactly on
Pause, to fast exactly on Continue, and not at all otherwise. -/
theorem C5_cadence_tracks_state :
    ∀ (elog : Bool) (args : List String) (events : List Event),
      cadenceMatches (execLoop elog args loopInit events).1 ∧
      ∀ (st : LoopState) (e : Event),
        (execStep elog args st e).1.tick =
          (match e with
           | Event.ctrl SvcCmd.pause _ => Tick.slow
           | Event.ctrl SvcCmd.continueC _ => Tick.fast
           | _ => st.tick) := by
  intro elog args events
  constructor
  · exact execLoop_cadenceMatches elog args events loopInit
      (by constructor <;> simp [loopInit, cmdsAccepted])
  · intro st e
    cases e with
    | tick => rfl
    | ctrl cmd ctx => cases cmd <;> rfl

/-- C6: a Shutdown request with context value 7 under startup arguments
a, b produces, when the log sink is available, exactly one diagnostic
equal to the arguments joined by "-" concatenated with "-7", that is
"a-b-7"; without the sink no log call at all occurs and the announcements
and workload calls of the run are identical. -/
theorem C6_shutdown_diagnostic_string :
    (((Execute true ["a", "b"] [Event.ctrl SvcCmd.shutdown 7]).2.filter
        (fun o => o == Output.logInfo "a-b-7")).length = 1) ∧
    ((Execute false ["a", "b"] [Event.ctrl SvcCmd.shutdown 7]).2.filter Output.isLog = []) ∧
    (nonLogOutputs (Execute false ["a", "b"] [Event.ctrl SvcCmd.shutdown 7]).2
      = nonLogOutputs (Execute true ["a", "b"] [Event.ctrl SvcCmd.shutdown 7]).2) := by
  decide

/-- C7: an interactive (non-supervised) invocation of Run bypasses the
controller: its trace is exactly one direct call of the Run operation of
the workload — in particular it contains no status announcement — and the
result does not depend on the control-request stream at all. -/
theorem C7_interactive_bypasses_controller :
    ∀ (winErrCode : Int → Option SysErr) (w : WindowsRecord) (elog : Bool)
      (svcArgs : List String) (events : List Event) (svcErr : Option GoError),
      ((WindowsRecord.Run winErrCode w elog (Except.ok true) svcArgs events svcErr).2
        = [Output.runCall]) ∧
      ((WindowsRecord.Run winErrCode w elog (Except.ok true) svcArgs events svcErr).2.filter
        Output.isAnnouncement = []) ∧
      (WindowsRecord.Run winErrCode w elog (Except.ok true) svcArgs events svcErr
        = WindowsRecord.Run winErrCode w elog (Except.ok true) svcArgs [] svcErr) := by
  intro winErrCode w elog svcArgs events svcErr
  exact ⟨rfl, rfl, rfl⟩

/-- C8: every error of the supervised path — from the session check or
from svc.Run — is propagated to the caller of Run through getWindowsError,
which replaces it by the formatted human-readable explanation exactly when
it is an exit error whose status has an entry in the WinErrCode table, and
returns the raw error unchanged otherwise (for an exit error with no
table entry as well as for every non-exit error). -/
theorem C8_fatal_errors_propagated :
    ∀ (winErrCode : Int → Option SysErr) (w : WindowsRecord) (elog : Bool)
      (svcArgs : List String) (events : List Event) (err : GoError),
      ((WindowsRecord.Run winErrCode w elog (Except.error err) svcArgs events none).1.2
        = some (getWindowsError winErrCode err)) ∧
      ((WindowsRecord.Run winErrCode w elog (Except.ok false) svcArgs events (some err)).1.2
        = some (getWindowsError winErrCode err)) ∧
      (∀ (status : Int) (sysErr : SysErr), winErrCode status = some sysErr →
        getWindowsError winErrCode (GoError.exitError status)
          = GoError.errorString
              ("\n " ++ sysErr.title ++ ": " ++ sysErr.description ++ " \n "
                ++ sysErr.action)) ∧
      (∀ status : Int, winErrCode status = none →
        getWindowsError winErrCode (GoError.exitError status) = GoError.exitError status) ∧
      (∀ msg : String,
        getWindowsError winErrCode (GoError.errorString msg) = GoError.errorString msg) := by
  intro winErrCode w elog svcArgs events err
  refine ⟨rfl, rfl, ?_, ?_, fun msg => rfl⟩
  · intro status sysErr h
    simp [getWindowsError, h]
  · intro status h
    simp [getWindowsError, h]

/-- Witness for C8: the error mapping theorem instantiated on the concrete
one-entry table, at a mapped exit status and at an unmapped one. -/
theorem C8_fatal_errors_propagated_witness :
    winErrCodeExample 5 = some ⟨"title5", "desc5", "action5"⟩ ∧
    getWindowsError winErrCodeExample (GoError.exitError 5)
      = GoError.errorString ("\n " ++ "title5" ++ ": " ++ "desc5" ++ " \n " ++ "action5") ∧
    winErrCodeExample 6 = none ∧
    getWindowsError winErrCodeExample (GoError.exitError 6) = GoError.exitError 6 := by
  refine ⟨by decide, ?_, by decide, ?_⟩
  · exact (C8_fatal_errors_propagated winErrCodeExample ⟨"n", "d", []⟩ true [] []
      (GoError.errorString "x")).2.2.1 5 ⟨"title5", "desc5", "action5"⟩ (by decide)
  · exact (C8_fatal_errors_propagated winErrCodeExample ⟨"n", "d", []⟩ true [] []
      (GoError.errorString "x")).2.2.2.1 6 (by decide)

/-- C9: newDaemon never fails: for every name, description and dependency
list, and whether or not opening the event-log sink succeeds, it returns
the populated record and a nil error, recording the sink as absent when
the open failed; and with the sink absent every logging call of the
controller is a guarded no-op: the handler trace holds no log entry and
has exactly the same final loop state and the same announcements and
workload calls as the run with the sink present. -/
theorem C9_newDaemon_never_fails :
    ∀ (name description : String) (deps : List String) (openOk : Bool)
      (args : List String) (events : List Event),
      ((newDaemon name description deps openOk).2.2 = none) ∧
      ((newDaemon name description deps openOk).2.1 = ⟨name, description, deps⟩) ∧
      ((newDaemon name description deps openOk).1 = openOk) ∧
      ((Execute false args events).2.all (fun o => !o.isLog) = true) ∧
      (nonLogOutputs (Execute false args events).2
        = nonLogOutputs (Execute true args events).2) ∧
      ((Execute false args events).1 = (Execute true args events).1) := by
  intro name description deps openOk args events
  obtain ⟨h1, h2, h3⟩ := Execute_elog_equiv args events
  exact ⟨rfl, rfl, rfl, h3, h2, h1⟩

/-- C10: in an interactive invocation of Run, the prepare (Start) and
stop-request (Stop) operations of the workload are never invoked and its
Run operation is, and Run returns the success string — the run action
label followed by completed — with a nil error, for every workload and
every environment. -/
theorem C10_interactive_only_run_call :
    ∀ (winErrCode : Int → Option SysErr) (w : WindowsRecord) (elog : Bool)
      (svcArgs : List String) (events : List Event) (svcErr : Option GoError),
      ((WindowsRecord.Run winErrCode w elog (Except.ok true) svcArgs events svcErr).2.contains
        Output.startCall = false) ∧
      ((WindowsRecord.Run winErrCode w elog (Except.ok true) svcArgs events svcErr).2.contains
        Output.stopCall = false) ∧
      ((WindowsRecord.Run winErrCode w elog (Except.ok true) svcArgs events svcErr).2.contains
        Output.runCall = true) ∧
      ((WindowsRecord.Run winErrCode w elog (Except.ok true) svcArgs events svcErr).1
        = (("Running " ++ w.description ++ ":") ++ " completed.", none)) := by
  intro winErrCode w elog svcArgs events svcErr
  exact ⟨rfl, rfl, rfl, rfl⟩

end Daemon
